import Mathlib

/-!
# Verification of cherrybot's abuse-detection and moderation-storage core

A shallow embedding of `actualcherrybot/security_commands.py` and
`actualcherrybot/moderation_commands.py`, with theorems settling the
specification claims about the sliding-window abuse detector, the
guild-enablement store and the warning ledger.

Timestamps (Python floats from `datetime.utcnow().timestamp()`) are modelled
as integers (only ordering and subtraction of
 timestamps is used, so integer seconds are exact at every claim-relevant
 input).  Guild, user and channel identifiers are naturals.  The JSON
persistence layer is modelled as an optional optional value: `none` means the
file does not exist, `some none` means the file exists but its text does not
parse, `some (some v)` means the file parses to `v`.
-/

namespace Cherrybot

/-- Constant `JOIN_THRESHOLD = 6`: joins within window that trigger raid mode. -/
def JOIN_THRESHOLD : ℕ := 6

/-- Constant `JOIN_WINDOW = 10` seconds. -/
def JOIN_WINDOW : ℤ := 10

/-- Constant `CHANNEL_DEL_THRESHOLD = 3`: channel deletions within window that trigger a ban. -/
def CHANNEL_DEL_THRESHOLD : ℕ := 3

/-- Constant `ROLE_DEL_THRESHOLD = 3`: role deletions within window that trigger a ban. -/
def ROLE_DEL_THRESHOLD : ℕ := 3

/-- Constant `DEL_WINDOW = 30` seconds. -/
def DEL_WINDOW : ℤ := 30

/-- The two destructive-action kinds handled by `_handle_destructive_action`
(the `action` string argument). -/
inductive DKind where
  | channel_delete
  | role_delete
deriving DecidableEq, Repr

/-- The three event kinds the detector observes (member join plus the two
destructive kinds). -/
inductive EKind where
  | member_join
  | channel_delete
  | role_delete
deriving DecidableEq, Repr

/-- Source line `threshold = CHANNEL_DEL_THRESHOLD if action == "channel_delete" else ROLE_DEL_THRESHOLD`
in `_handle_destructive_action`. -/
def thresholdFor : DKind → ℕ
  | .channel_delete => CHANNEL_DEL_THRESHOLD
  | .role_delete => ROLE_DEL_THRESHOLD

/-- Semantics of `collections.deque(maxlen=m).append(x)`: when the deque is full the
oldest (leftmost) entry is discarded before `x` is appended on the right. -/
def appendMax (m : ℕ) (dq : List ℤ) (x : ℤ) : List ℤ :=
  if dq.length < m then dq ++ [x] else dq.drop (dq.length + 1 - m) ++ [x]

/-- The in-window count used by both handlers:
`recent = [t for t in dq if now - t <= WINDOW]; len(recent)`. -/
def countWithin (dq : List ℤ) (w : ℤ) (now : ℤ) : ℕ :=
  (dq.filter (fun t => now - t ≤ w)).length

/-- The mutable state of the `Security` cog: the enabled-guild set
(`self.enabled_guilds`), the per-guild join deques (`self.joins`), the
per-`(guild, user, action)` destructive-action deques (`self.actions`), and
the persisted contents of `security_enabled.json`. -/
structure SecState where
  enabled : Finset ℕ
  joins : ℕ → List ℤ
  actions : ℕ × ℕ × DKind → List ℤ
  storedEnabled : Option (Option (List ℕ))

/-- Method `Security._load_enabled`: parse the persisted file as a list of guild ids
and take its set; a missing file or any parse failure yields the empty set. -/
def loadEnabled : Option (Option (List ℕ)) → Finset ℕ
  | some (some l) => l.toFinset
  | some none => ∅
  | none => ∅

/-- The `Security.__init__` state: enabled set loaded from the persisted
file, all deques empty (`defaultdict` of fresh deques). -/
def initSecurity (file : Option (Option (List ℕ))) : SecState :=
  ⟨loadEnabled file, fun _ => [], fun _ => [], file⟩

/-- A `Security` state with exactly one enabled guild, empty deques, and the
singleton list persisted — the state right after `securitysetup enable` on a
fresh install. -/
def freshEnabled (g : ℕ) : SecState :=
  ⟨{g}, fun _ => [], fun _ => [], some (some [g])⟩

/-- Listener `Security.on_member_join`: if the guild is not enabled, return with no
state change; otherwise append `now` to the guild's join deque
(`maxlen=50`), count the joins within `JOIN_WINDOW`, and activate raid mode
(the raid mitigation) when the count reaches `JOIN_THRESHOLD`.  The boolean
records whether `_activate_raid_mode` was invoked for this event. -/
def onMemberJoin (st : SecState) (g : ℕ) (now : ℤ) : SecState × Bool :=
  if g ∈ st.enabled then
    let dq := appendMax 50 (st.joins g) now
    ({ st with joins := Function.update st.joins g dq },
      JOIN_THRESHOLD ≤ countWithin dq JOIN_WINDOW now)
  else (st, false)

/-- Result of one `_handle_destructive_action` call: the new state, the ban
calls issued (`guild.ban(user, ...)`), and whether the audit log was
consulted (`guild.audit_logs(...)`). -/
structure DestrResult where
  state : SecState
  bans : List (ℕ × ℕ × DKind)
  auditLookedUp : Bool

/-- Method `Security._handle_destructive_action`: disabled guilds return before the
audit-log lookup; a lookup that raises or returns no entry (`audit = none`)
drops the event with no window update; otherwise `now` is appended to the
deque for `(guild, user, action)` (`maxlen=10`) and the user is banned when
the in-window count reaches the kind's threshold. -/
def handleDestructiveAction (st : SecState) (g : ℕ) (action : DKind)
    (audit : Option ℕ) (now : ℤ) : DestrResult :=
  if g ∈ st.enabled then
    match audit with
    | none => ⟨st, [], true⟩
    | some userId =>
      let key := (g, userId, action)
      let dq := appendMax 10 (st.actions key) now
      let st' := { st with actions := Function.update st.actions key dq }
      if thresholdFor action ≤ countWithin dq DEL_WINDOW now then
        ⟨st', [(g, userId, action)], true⟩
      else
        ⟨st', [], true⟩
  else ⟨st, [], false⟩

/-- Run a sequence of member-join events for guild `g` (one `on_member_join`
per timestamp, in order), counting how many times the raid mitigation
(`_activate_raid_mode`) is invoked. -/
def runJoins (g : ℕ) : SecState → List ℤ → SecState × ℕ
  | st, [] => (st, 0)
  | st, t :: ts =>
    let p := onMemberJoin st g t
    let q := runJoins g p.1 ts
    (q.1, (if p.2 then 1 else 0) + q.2)

/-- One destructive-action platform event as the handler sees it: the guild,
the action kind, the audit-log attribution result, and the timestamp. -/
structure DEvent where
  guild : ℕ
  action : DKind
  audit : Option ℕ
  time : ℤ

/-- Run a sequence of destructive-action events in order, collecting every
ban call issued. -/
def runDestr : SecState → List DEvent → SecState × List (ℕ × ℕ × DKind)
  | st, [] => (st, [])
  | st, e :: es =>
    let r := handleDestructiveAction st e.guild e.action e.audit e.time
    let q := runDestr r.state es
    (q.1, r.bans ++ q.2)

/-- Every element of `appendMax m dq x` is an old element or `x` itself. -/
theorem mem_appendMax {m : ℕ} {dq : List ℤ} {x t : ℤ} (h : t ∈ appendMax m dq x) :
    t ∈ dq ∨ t = x := by
  unfold appendMax at h
  split at h
  · simpa using h
  · rcases List.mem_append.mp h with h | h
    · exact Or.inl (List.mem_of_mem_drop h)
    · simp at h
      exact Or.inr h

/-- Appending onto a deque of capacity `m` grows the length to
`min (len + 1) m`. -/
theorem length_appendMax {m : ℕ} (hm : 0 < m) {dq : List ℤ} (hdq : dq.length ≤ m) (x : ℤ) :
    (appendMax m dq x).length = min (dq.length + 1) m := by
  unfold appendMax
  split
  · simp
    omega
  · simp
    omega

/-- When every stored timestamp lies within the window of `now`, the
in-window count is the whole deque length. -/
theorem countWithin_eq_length {dq : List ℤ} {w now : ℤ} (h : ∀ t ∈ dq, now - t ≤ w) :
    countWithin dq w now = dq.length := by
  unfold countWithin
  rw [List.filter_eq_self.mpr]
  intro a ha
  simpa using h a ha

/-- Key burst lemma: running a sequence of join events that all lie within
`JOIN_WINDOW` of each other (and of any timestamps already in the deque)
invokes the raid mitigation once per event from the point the rolling count
reaches `JOIN_THRESHOLD` on: `n - (5 - k)` invocations in total (truncated
subtraction), where `k` is the starting deque length and `n` the number of
events. -/
theorem runJoins_burst (g : ℕ) (ts : List ℤ) :
    ∀ st : SecState, g ∈ st.enabled → (st.joins g).length ≤ 50 →
      (∀ t ∈ st.joins g, ∀ s ∈ ts, s - t ≤ JOIN_WINDOW) →
      (∀ t ∈ ts, ∀ s ∈ ts, s - t ≤ JOIN_WINDOW) →
      (runJoins g st ts).2 = ts.length - (5 - (st.joins g).length) := by
  induction ts with
  | nil =>
    intro st _ _ _ _
    simp [runJoins]
  | cons t ts ih =>
    intro st hg hlen hold hts
    have hmemdq : ∀ u ∈ appendMax 50 (st.joins g) t, t - u ≤ JOIN_WINDOW := by
      intro u hu
      rcases mem_appendMax hu with h | h
      · exact hold u h t (List.mem_cons_self t ts)
      · simp [h, JOIN_WINDOW]
    have hcount : countWithin (appendMax 50 (st.joins g) t) JOIN_WINDOW t
        = (appendMax 50 (st.joins g) t).length := countWithin_eq_length hmemdq
    have hlen2 : (appendMax 50 (st.joins g) t).length = min ((st.joins g).length + 1) 50 :=
      length_appendMax (by norm_num) hlen t
    set st' : SecState :=
      { st with joins := Function.update st.joins g (appendMax 50 (st.joins g) t) } with hst'
    have hjoins' : st'.joins g = appendMax 50 (st.joins g) t := by
      simp [hst']
    have htail : (runJoins g st' ts).2 = ts.length - (5 - (st'.joins g).length) := by
      apply ih st' hg
      · rw [hjoins', hlen2]
        omega
      · intro u hu s hs
        rcases mem_appendMax (hjoins' ▸ hu) with h | h
        · exact hold u h s (List.mem_cons_of_mem t hs)
        · exact h ▸ hts t (List.mem_cons_self t ts) s (List.mem_cons_of_mem t hs)
      · intro u hu s hs
        exact hts u (List.mem_cons_of_mem t hu) s (List.mem_cons_of_mem t hs)
    have hstep : (runJoins g st (t :: ts)).2 =
        (if JOIN_THRESHOLD ≤ countWithin (appendMax 50 (st.joins g) t) JOIN_WINDOW t
          then 1 else 0) + (runJoins g st' ts).2 := by
      simp [runJoins, onMemberJoin, hg, hst']
    rw [hstep, htail, hjoins', hcount, hlen2]
    simp only [JOIN_THRESHOLD, List.length_cons]
    split_ifs with h6 <;> omega

/-- The number of stored timestamps within the window, written the way the
spec's words describe `countWithin` (a count over the stored multiset), for
comparison with the source's filter-then-length computation. -/
def countWithinSpec (dq : List ℤ) (w : ℤ) (now : ℤ) : ℕ :=
  dq.countP (fun t => now - t ≤ w)

/-- C1 (corrected): the code has no `Latched` state.  For a sustained burst
of `n ≥ 6` simultaneous-window join events in an enabled scope, the raid
mitigation is invoked on the first crossing and again on every further
qualifying event — `n - 5` invocations in total, at least one, rather than
exactly one per burst. -/
theorem burst_fires_once_per_qualifying_event (g : ℕ) (t : ℤ) (n : ℕ) (h : 6 ≤ n) :
    (runJoins g (freshEnabled g) (List.replicate n t)).2 = n - 5 ∧
      1 ≤ (runJoins g (freshEnabled g) (List.replicate n t)).2 := by
  have hb := runJoins_burst g (List.replicate n t) (freshEnabled g)
    (Finset.mem_singleton_self g) (by simp [freshEnabled])
    (by intro u hu s hs; simp [freshEnabled] at hu)
    (by
      intro u hu s hs
      rw [List.eq_of_mem_replicate hu, List.eq_of_mem_replicate hs]
      simp [JOIN_WINDOW])
  have hb2 : (runJoins g (freshEnabled g) (List.replicate n t)).2 = n - 5 := by
    simpa [freshEnabled] using hb
  exact ⟨hb2, by rw [hb2]; omega⟩

/-- C1 witness: a burst of 7 joins at the same instant yields `7 - 5 = 2`
mitigation invocations (and at least one). -/
theorem burst_fires_once_per_qualifying_event_witness :
    (runJoins 4 (freshEnabled 4) (List.replicate 7 3)).2 = 7 - 5 ∧
      1 ≤ (runJoins 4 (freshEnabled 4) (List.replicate 7 3)).2 :=
  burst_fires_once_per_qualifying_event 4 3 7 (by decide)

/-- C1 counterexample: a sustained burst of 8 joins within the window makes
the detector invoke the raid mitigation 3 times, not exactly once. -/
theorem burst_fires_more_than_once_cex :
    (runJoins 1 (freshEnabled 1) (List.replicate 8 0)).2 ≠ 1 := by decide

/-- C2 (corrected): for a sequence of `N` join events for an enabled scope
all within the 10-second join window of each other, the number of raid
mitigations is `N - 5` under truncated subtraction: zero when `N < 6`, and
`N - 5` (not exactly one) when `N ≥ 6`. -/
theorem join_threshold_count (g : ℕ) (ts : List ℤ)
    (hw : ∀ t ∈ ts, ∀ s ∈ ts, s - t ≤ JOIN_WINDOW) :
    (runJoins g (freshEnabled g) ts).2 = ts.length - 5 := by
  have hb := runJoins_burst g ts (freshEnabled g) (Finset.mem_singleton_self g)
    (by simp [freshEnabled]) (by intro u hu s hs; simp [freshEnabled] at hu) hw
  simpa [freshEnabled] using hb

/-- C2 witness: 6 joins at the same instant fire `6 - 5 = 1` raid
mitigation, and 3 joins fire `3 - 5 = 0`. -/
theorem join_threshold_count_witness :
    (runJoins 2 (freshEnabled 2) [5, 5, 5, 5, 5, 5]).2 = 1 ∧
      (runJoins 2 (freshEnabled 2) [5, 6, 7]).2 = 0 := by
  constructor
  · have h := join_threshold_count 2 [5, 5, 5, 5, 5, 5] (by decide)
    simpa using h
  · have h := join_threshold_count 2 [5, 6, 7] (by decide)
    simpa using h

/-- C2 counterexample: `N = 7` joins within the window fire 2 raid
mitigations, refuting "exactly one fires for every `N ≥ 6`". -/
theorem join_threshold_exactly_one_cex :
    (runJoins 1 (freshEnabled 1) [0, 0, 0, 0, 0, 0, 0]).2 ≠ 1 := by decide

/-- C3 (confirmed): events for a scope outside the enabled-guild set leave
the whole detector state (every join and destructive-action window — the
code keeps no latch state) unchanged, invoke no mitigation, and never touch
the audit log. -/
theorem disabled_guild_inert (st : SecState) (g : ℕ) (now : ℤ) (a : DKind)
    (au : Option ℕ) (h : g ∉ st.enabled) :
    onMemberJoin st g now = (st, false) ∧
      handleDestructiveAction st g a au now = ⟨st, [], false⟩ := by
  constructor
  · simp [onMemberJoin, h]
  · simp [handleDestructiveAction, h]

/-- C3 witness: guild 2 is not in the enabled set `{1}`; both handlers are
inert on its events. -/
theorem disabled_guild_inert_witness :
    onMemberJoin (freshEnabled 1) 2 0 = (freshEnabled 1, false) ∧
      handleDestructiveAction (freshEnabled 1) 2 DKind.channel_delete (some 5) 0
        = ⟨freshEnabled 1, [], false⟩ :=
  disabled_guild_inert (freshEnabled 1) 2 0 DKind.channel_delete (some 5) (by decide)

/-- C4 (confirmed): the in-window count computed by the handlers equals the
number of stored timestamps `t` with `now - t ≤ w`, and in particular with
window 10, five events at `t = 0` and one at `t = 15`, the count queried at
`now = 15` is 1, not 6. -/
theorem countWithin_evicts_old :
    (∀ dq w now, countWithin dq w now = countWithinSpec dq w now) ∧
      countWithin [0, 0, 0, 0, 0, 15] 10 15 = 1 := by
  constructor
  · intro dq w now
    simp [countWithin, countWithinSpec, List.countP_eq_length_filter]
  · decide

/-- The detector event kind of a destructive action. -/
def ekindOf : DKind → EKind
  | .channel_delete => .channel_delete
  | .role_delete => .role_delete

/-- The per-kind threshold table of the spec's Threshold Policy, built from
the code's configuration constants. -/
def thresholdOf : EKind → ℕ
  | .member_join => JOIN_THRESHOLD
  | .channel_delete => CHANNEL_DEL_THRESHOLD
  | .role_delete => ROLE_DEL_THRESHOLD

/-- The per-kind window table, built from the code's configuration
constants. -/
def windowOf : EKind → ℤ
  | .member_join => JOIN_WINDOW
  | .channel_delete => DEL_WINDOW
  | .role_delete => DEL_WINDOW

/-- The spec's Threshold Policy contract,
`evaluate(kind, count) = count >= threshold[kind]`, written from the spec's
words for comparison with the handlers' inline checks. -/
def evaluate (k : EKind) (count : ℕ) : Bool := thresholdOf k ≤ count

/-- Serialization of the enabled set for `_save_enabled`
(`json.dumps(list(self.enabled_guilds))`); the Python `list(set)` order is
unspecified, modelled by the canonical sorted listing. -/
def serializeEnabled (e : Finset ℕ) : List ℕ := e.sort (fun a b => a ≤ b)

/-- Command `securitysetup enable`: add the invoking guild to the enabled set and
synchronously persist the full set. -/
def security_enable (st : SecState) (g : ℕ) : SecState :=
  let e := insert g st.enabled
  { st with enabled := e, storedEnabled := some (some (serializeEnabled e)) }

/-- Command `securitysetup disable`: discard the invoking guild from the enabled set
and synchronously persist the full set. -/
def security_disable (st : SecState) (g : ℕ) : SecState :=
  let e := st.enabled.erase g
  { st with enabled := e, storedEnabled := some (some (serializeEnabled e)) }

/-- One `{reason, mod, time}` warning record as stored by the `warn`
command. -/
structure WarnEntry where
  reason : String
  mod : ℕ
  time : String
deriving DecidableEq, Repr

/-- The warnings map persisted in `warnings.json`: subject id →
ordered list of records.  Python dict keys are unique; an association list
with first-match lookup models it. -/
abbrev Warnings := List (ℕ × List WarnEntry)

/-- Function `load_warnings`: parse the persisted file; a missing file or a JSON
decode error yields the empty map. -/
def load_warnings : Option (Option Warnings) → Warnings
  | some (some w) => w
  | some none => []
  | none => []

/-- C5 (confirmed): the policy constants have the specified values, the
trigger decision is exactly `count >= threshold[kind]` (so a count equal to
the threshold triggers), and each handler's inline check agrees with that
policy applied to the in-window count of the freshly appended deque. -/
theorem threshold_policy_exact :
    JOIN_THRESHOLD = 6 ∧ JOIN_WINDOW = 10 ∧ CHANNEL_DEL_THRESHOLD = 3 ∧
      ROLE_DEL_THRESHOLD = 3 ∧ DEL_WINDOW = 30 ∧
      (∀ k c, evaluate k c = true ↔ thresholdOf k ≤ c) ∧
      (∀ k, evaluate k (thresholdOf k) = true) ∧
      (∀ st g now, (onMemberJoin st g now).2 =
        (decide (g ∈ st.enabled) &&
          evaluate .member_join
            (countWithin (appendMax 50 (st.joins g) now) JOIN_WINDOW now))) ∧
      (∀ st g a u now, (handleDestructiveAction st g a (some u) now).bans =
        if g ∈ st.enabled ∧ evaluate (ekindOf a)
            (countWithin (appendMax 10 (st.actions (g, u, a)) now) DEL_WINDOW now) = true
          then [(g, u, a)] else []) := by
  refine ⟨rfl, rfl, rfl, rfl, rfl, ?_, ?_, ?_, ?_⟩
  · intro k c
    simp [evaluate]
  · intro k
    simp [evaluate]
  · intro st g now
    by_cases hg : g ∈ st.enabled
    · simp [onMemberJoin, hg, evaluate, thresholdOf]
    · simp [onMemberJoin, hg]
  · intro st g a u now
    by_cases hg : g ∈ st.enabled
    · cases a <;>
        simp [handleDestructiveAction, hg, evaluate, ekindOf, thresholdOf, thresholdFor,
          apply_ite DestrResult.bans]
    · cases a <;> simp [handleDestructiveAction, hg]

/-- C6 (confirmed): a missing or malformed persisted file loads as the empty
enabled set (and the empty warnings map), and a subsequent `enable(G)` on
the recovered state succeeds and persists exactly the set `{G}`. -/
theorem corruption_fail_open (file : Option (Option (List ℕ)))
    (wfile : Option (Option Warnings)) (g : ℕ)
    (hf : file = none ∨ file = some none)
    (hw : wfile = none ∨ wfile = some none) :
    loadEnabled file = ∅ ∧ load_warnings wfile = [] ∧
      (security_enable (initSecurity file) g).enabled = {g} ∧
      (security_enable (initSecurity file) g).storedEnabled = some (some [g]) := by
  have hload : loadEnabled file = ∅ := by
    rcases hf with h | h <;> simp [h, loadEnabled]
  refine ⟨hload, ?_, ?_, ?_⟩
  · rcases hw with h | h <;> simp [h, load_warnings]
  · simp [security_enable, initSecurity, hload]
  · simp [security_enable, initSecurity, hload, serializeEnabled, Finset.sort_singleton]

/-- C6 witness: a corrupt enablement file and a missing warnings file both
load as empty, and `enable 7` persists `[7]`. -/
theorem corruption_fail_open_witness :
    loadEnabled (some none) = ∅ ∧ load_warnings none = [] ∧
      (security_enable (initSecurity (some none)) 7).enabled = {7} ∧
      (security_enable (initSecurity (some none)) 7).storedEnabled = some (some [7]) :=
  corruption_fail_open (some none) none 7 (Or.inr rfl) (Or.inl rfl)

/-- C9 (confirmed): enable adds the scope and persists the full resulting
set, disable removes it and persists the full resulting set, both are
idempotent on the resulting set, and disabling a scope that is not enabled
leaves the set unchanged (no failure). -/
theorem enable_disable_idempotent (st : SecState) (s : ℕ) :
    (security_enable st s).enabled = st.enabled ∪ {s} ∧
      (security_enable st s).storedEnabled =
        some (some (serializeEnabled (security_enable st s).enabled)) ∧
      (security_disable st s).enabled = st.enabled \ {s} ∧
      (security_disable st s).storedEnabled =
        some (some (serializeEnabled (security_disable st s).enabled)) ∧
      (security_enable (security_enable st s) s).enabled =
        (security_enable st s).enabled ∧
      (security_disable (security_disable st s) s).enabled =
        (security_disable st s).enabled ∧
      (s ∉ st.enabled → (security_disable st s).enabled = st.enabled) := by
  refine ⟨?_, rfl, ?_, rfl, ?_, ?_, ?_⟩
  · simp [security_enable, Finset.insert_eq, Finset.union_comm]
  · simp [security_disable, Finset.erase_eq]
  · simp [security_enable]
  · simp [security_disable]
  · intro h
    simp [security_disable, Finset.erase_eq_of_not_mem h]

/-- C9 witness: on the state with enabled set `{1}`, enabling 2 yields
`{1} ∪ {2}` with that set persisted, double enable/disable agree with the
single application, and disabling the absent scope 3 is a no-op. -/
theorem enable_disable_idempotent_witness :
    (security_enable (freshEnabled 1) 2).enabled = (freshEnabled 1).enabled ∪ {2} ∧
      (security_disable (freshEnabled 1) 3).enabled = (freshEnabled 1).enabled := by
  refine ⟨(enable_disable_idempotent (freshEnabled 1) 2).1, ?_⟩
  exact (enable_disable_idempotent (freshEnabled 1) 3).2.2.2.2.2.2 (by decide)

/-- Source line `self.warnings.setdefault(str(member.id), []).append(entry)`: append the
record to the subject's list, creating the list if the key is absent. -/
def setdefaultAppend : Warnings → ℕ → WarnEntry → Warnings
  | [], k, e => [(k, [e])]
  | (k', l) :: rest, k, e =>
    if k' = k then (k', l ++ [e]) :: rest else (k', l) :: setdefaultAppend rest k e

/-- Source expression `self.warnings.get(str(member.id), [])`: look up a subject's warning
list, defaulting to empty. -/
def warnLookup (w : Warnings) (k : ℕ) : List WarnEntry :=
  match w.find? (fun p => p.1 == k) with
  | some p => p.2
  | none => []

/-- The observable side effects of the `warn` command, in program order. -/
inductive ModEffect where
  | persist (data : Warnings)
  | reply (memberId : ℕ) (reason : String)
  | modlog (memberId : ℕ) (reason : String)
  | dm (memberId : ℕ) (reason : String)
deriving DecidableEq

/-- Command `ModerationCommands.warn`: build the `{reason, mod, time}` record
(reason lower-cased), append it to the member's list, call `save_warnings`,
then reply in channel, write the mod log, and DM the member — in that
order. -/
def warn (w : Warnings) (modId memberId : ℕ) (reason time : String) :
    Warnings × List ModEffect :=
  let entry : WarnEntry := ⟨reason.toLower, modId, time⟩
  let w' := setdefaultAppend w memberId entry
  (w', [.persist w', .reply memberId reason, .modlog memberId reason, .dm memberId reason])

/-- Lemma: `setdefaultAppend` appends the new record at the end of the target
subject's list (creating it when absent). -/
theorem warnLookup_setdefaultAppend_self (w : Warnings) (k : ℕ) (e : WarnEntry) :
    warnLookup (setdefaultAppend w k e) k = warnLookup w k ++ [e] := by
  induction w with
  | nil => simp [setdefaultAppend, warnLookup, List.find?]
  | cons p rest ih =>
    obtain ⟨k', l⟩ := p
    by_cases hk : k' = k
    · subst hk
      simp [setdefaultAppend, warnLookup, List.find?]
    · simp only [setdefaultAppend, if_neg hk]
      have hbeq : (k' == k) = false := by simpa using hk
      simpa [warnLookup, List.find?, hbeq] using ih

/-- Lemma: `setdefaultAppend` leaves every other subject's list untouched. -/
theorem warnLookup_setdefaultAppend_other (w : Warnings) (k u : ℕ) (e : WarnEntry)
    (hu : u ≠ k) :
    warnLookup (setdefaultAppend w k e) u = warnLookup w u := by
  induction w with
  | nil =>
    have : (k == u) = false := by simpa using fun h => hu h.symm
    simp [setdefaultAppend, warnLookup, List.find?, this]
  | cons p rest ih =>
    obtain ⟨k', l⟩ := p
    by_cases hk : k' = k
    · subst hk
      have : (k' == u) = false := by simpa using fun h => hu h.symm
      simp [setdefaultAppend, warnLookup, List.find?, this]
    · simp only [setdefaultAppend, if_neg hk]
      by_cases hku : k' = u
      · subst hku
        simp [warnLookup, List.find?]
      · have : (k' == u) = false := by simpa using hku
        simpa [warnLookup, List.find?, this] using ih

/-- C10 (confirmed): `warn` appends exactly one `{reason, mod, time}` record
at the end of the target member's list (creating it if absent), leaves every
other subject's list unchanged, and its first side effect — before the
channel reply, the mod log and the DM — is persisting the updated map. -/
theorem warn_appends_and_persists_first (w : Warnings) (modId memberId other : ℕ)
    (reason time : String) (hother : other ≠ memberId) :
    warnLookup (warn w modId memberId reason time).1 memberId =
        warnLookup w memberId ++ [⟨reason.toLower, modId, time⟩] ∧
      warnLookup (warn w modId memberId reason time).1 other = warnLookup w other ∧
      (warn w modId memberId reason time).2.head? =
        some (ModEffect.persist (warn w modId memberId reason time).1) := by
  refine ⟨?_, ?_, rfl⟩
  · exact warnLookup_setdefaultAppend_self w memberId _
  · exact warnLookup_setdefaultAppend_other w memberId other _ hother

/-- C10 witness: warning member 2 (moderator 1) on a ledger that already
holds one record for member 2 and one for member 3 appends to member 2's
list, leaves member 3's list unchanged, and persists first. -/
theorem warn_appends_and_persists_first_witness :
    warnLookup (warn [(2, [⟨"spam", 9, "t0"⟩]), (3, [⟨"flood", 9, "t1"⟩])] 1 2 "Rude" "t2").1 2 =
        warnLookup [(2, [⟨"spam", 9, "t0"⟩]), (3, [⟨"flood", 9, "t1"⟩])] 2 ++
          [⟨"Rude".toLower, 1, "t2"⟩] ∧
      warnLookup (warn [(2, [⟨"spam", 9, "t0"⟩]), (3, [⟨"flood", 9, "t1"⟩])] 1 2 "Rude" "t2").1 3 =
        warnLookup [(2, [⟨"spam", 9, "t0"⟩]), (3, [⟨"flood", 9, "t1"⟩])] 3 ∧
      (warn [(2, [⟨"spam", 9, "t0"⟩]), (3, [⟨"flood", 9, "t1"⟩])] 1 2 "Rude" "t2").2.head? =
        some (ModEffect.persist
          (warn [(2, [⟨"spam", 9, "t0"⟩]), (3, [⟨"flood", 9, "t1"⟩])] 1 2 "Rude" "t2").1) :=
  warn_appends_and_persists_first [(2, [⟨"spam", 9, "t0"⟩]), (3, [⟨"flood", 9, "t1"⟩])]
    1 2 3 "Rude" "t2" (by decide)

/-- C7 (confirmed): in an enabled scope, a destructive-action event whose
audit-log attribution raises, times out, or returns no entry is dropped —
state unchanged, no ban — though the audit log was consulted; and the
window for `(scope, subject, kind)` is appended exactly when a subject is
resolved. -/
theorem attribution_failure_drops (st : SecState) (g u : ℕ) (a : DKind) (now : ℤ)
    (hg : g ∈ st.enabled) :
    handleDestructiveAction st g a none now = ⟨st, [], true⟩ ∧
      (handleDestructiveAction st g a (some u) now).state.actions (g, u, a) =
        appendMax 10 (st.actions (g, u, a)) now := by
  constructor
  · simp [handleDestructiveAction, hg]
  · simp only [handleDestructiveAction, if_pos hg]
    split <;> simp

/-- C7 witness: in enabled guild 3, a failed attribution leaves the state
untouched with no ban, while a resolved subject 4 gets its window
appended. -/
theorem attribution_failure_drops_witness :
    handleDestructiveAction (freshEnabled 3) 3 DKind.role_delete none 5
        = ⟨freshEnabled 3, [], true⟩ ∧
      (handleDestructiveAction (freshEnabled 3) 3 DKind.role_delete (some 4) 5).state.actions
          (3, 4, DKind.role_delete)
        = appendMax 10 ((freshEnabled 3).actions (3, 4, DKind.role_delete)) 5 :=
  attribution_failure_drops (freshEnabled 3) 3 4 DKind.role_delete 5 (by decide)

/-- C8 (confirmed): destructive-action windows are keyed per
`(scope, subject, kind)`: three channel deletions by subject `U` within the
30-second window produce exactly one ban call, for `(G, U)`, and a fourth
deletion in the same window attributed to a different subject `V` triggers
nothing (count 1 on its separate key). -/
theorem per_subject_keying (G U V : ℕ) (hUV : U ≠ V) :
    (runDestr (freshEnabled G)
        [⟨G, .channel_delete, some U, 0⟩, ⟨G, .channel_delete, some U, 10⟩,
          ⟨G, .channel_delete, some U, 20⟩, ⟨G, .channel_delete, some V, 25⟩]).2
      = [(G, U, DKind.channel_delete)] := by
  have hVU : ((G, V, DKind.channel_delete) : ℕ × ℕ × DKind)
      ≠ (G, U, DKind.channel_delete) := by
    simp [Ne.symm hUV]
  norm_num [runDestr, handleDestructiveAction, freshEnabled, appendMax, countWithin,
    thresholdFor, CHANNEL_DEL_THRESHOLD, DEL_WINDOW, Function.update_same,
    Function.update_noteq hVU, List.filter]

/-- C8 witness: with guild 1 and subjects 2 and 3, the four-event scenario
issues exactly the single ban `(1, 2, channel_delete)`. -/
theorem per_subject_keying_witness :
    (runDestr (freshEnabled 1)
        [⟨1, .channel_delete, some 2, 0⟩, ⟨1, .channel_delete, some 2, 10⟩,
          ⟨1, .channel_delete, some 2, 20⟩, ⟨1, .channel_delete, some 3, 25⟩]).2
      = [(1, 2, DKind.channel_delete)] :=
  per_subject_keying 1 2 3 (by decide)

end Cherrybot
